import Mathlib

/-!
Shallow embedding of `lib/extras/metrics.cc` (jpegli image-quality metrics).

Machine floating-point arithmetic is idealized as exact real arithmetic; the
accumulation order and the incremental-squaring structure of the source loops
are kept (loops become list folds in source order).  External collaborators
(packed-pixel conversion, color-management, the Butteraugli comparator) are
modelled as oracle functions supplied through an environment, returning
`Except` values, matching the `StatusOr`/`Status` discipline of the source.
-/

namespace Metrics

/-- Model of `jxl::ImageF`: a single-channel row-major raster (the difference map).
`data y x` is the pixel at row `y`, column `x`. -/
structure ImageF where
  xsize : Nat
  ysize : Nat
  data : Nat → Nat → ℝ

/-- A default-constructed `ImageF`: zero-sized. -/
def ImageF.empty : ImageF := ⟨0, 0, fun _ _ => 0⟩

/-- Model of `jxl::ButteraugliParams`: opaque configuration bag; `ComputeDistanceP`
receives it but never reads it. -/
structure ButteraugliParams where
  hfAsymmetry : ℝ
  xmul : ℝ
  intensityTarget : ℝ

/-- Default-constructed `ButteraugliParams` (field values as in the library). -/
noncomputable def defaultButteraugliParams : ButteraugliParams := ⟨0.8, 1, 80⟩

/-! ### ComputeDistanceP, generic (slow) path — metrics.cc lines 125..148 -/

/-- One pixel of the generic accumulation loop:
`d2 = pow(d, p); sum1[0] += d2; d2 *= d2; sum1[1] += d2; d2 *= d2; sum1[2] += d2`. -/
noncomputable def powStep (p : ℝ) (s : ℝ × ℝ × ℝ) (d : ℝ) : ℝ × ℝ × ℝ :=
  let d2 := Real.rpow d p
  let s0 := s.1 + d2
  let d2a := d2 * d2
  let s1 := s.2.1 + d2a
  let d2b := d2a * d2a
  (s0, s1, s.2.2 + d2b)

/-- The pixels of row `y` in source (left-to-right) order. -/
def rowPixels (dm : ImageF) (y : Nat) : List ℝ :=
  (List.range dm.xsize).map (dm.data y)

/-- The generic path's three running sums `sum1[0..2]`, accumulated row by
row, pixel by pixel. -/
noncomputable def genericSums (dm : ImageF) (p : ℝ) : ℝ × ℝ × ℝ :=
  (List.range dm.ysize).foldl (fun s y => (rowPixels dm y).foldl (powStep p) s) (0, 0, 0)

/-- Generic path result:
`v = Σ_i pow(onePerPixels * sum1[i], 1/(p * (1<<i))); v /= 3`. -/
noncomputable def computeDistancePGeneric (dm : ImageF) (p : ℝ) : ℝ :=
  let onePerPixels : ℝ := 1 / ((dm.ysize * dm.xsize : Nat) : ℝ)
  let s := genericSums dm p
  (Real.rpow (onePerPixels * s.1) (1 / (p * 1)) +
   Real.rpow (onePerPixels * s.2.1) (1 / (p * 2)) +
   Real.rpow (onePerPixels * s.2.2) (1 / (p * 4))) / 3

/-! ### Packed inputs, color encodings and external collaborators -/

/-- Model of `extras::PackedPixelFile`: only the header fields the metrics code reads. -/
structure PPF where
  xsize : Nat
  ysize : Nat
  numColorChannels : Nat
  deriving DecidableEq

/-- Three-plane float image (`jxl::Image3F`); `plane c y x` is channel `c`. -/
structure Image3 where
  plane : Nat → Nat → Nat → ℝ

/-- Model of `jxl::ColorEncoding` identity: gray/color flag, linear vs gamma transfer,
and an abstract tag for the remaining primaries/white-point data.  Equality
(`SameColorEncoding`) is structural. -/
structure ColorEnc where
  gray : Bool
  linearTransfer : Bool
  tag : Nat
  deriving DecidableEq

/-- Model of `ColorEncoding::SRGB(is_gray)`: gamma-encoded sRGB target. -/
def ColorEnc.srgb (g : Bool) : ColorEnc := ⟨g, false, 0⟩

/-- Model of `ColorEncoding::LinearSRGB(is_gray)`: linear-light sRGB target. -/
def ColorEnc.linearSrgb (g : Bool) : ColorEnc := ⟨g, true, 0⟩

/-- Typed failures surfaced by the metrics pipeline and its collaborators. -/
inductive Err where
  | sizeMismatch
  | channelMismatch
  | convFail
  | encFail
  | transformFail
  | comparatorFail
  | diffmapFail
  deriving DecidableEq

/-- External collaborators of metrics.cc, as oracle functions:
packed-to-planar conversion, color-encoding query, intensity target,
color-management transform, Butteraugli comparator construction and its
diffmap computation, and `ButteraugliScoreFromDiffmap`. -/
structure Env where
  convert : PPF → Except Err Image3
  getEnc : PPF → Except Err ColorEnc
  intensity : PPF → ColorEnc → ℝ
  transform : ColorEnc → ℝ → Image3 → ColorEnc → Except Err Image3
  comparatorMake : Image3 → ButteraugliParams → Except Err (Image3 → Except Err ImageF)
  scoreFromDiffmap : ImageF → ButteraugliParams → ℝ

/-- Value of `std::numeric_limits<double>::max()` as an exact real. -/
noncomputable def doubleMax : ℝ := 2 ^ 1024 - 2 ^ 971

/-- Value of `std::numeric_limits<float>::max()` as an exact real. -/
noncomputable def floatMax : ℝ := 2 ^ 128 - 2 ^ 104

/-! ### ComputeDistanceP, fast vectorized path — metrics.cc lines 54..124

Vector registers are modelled as lane-indexed families `Nat → ℝ` (lanes
`0..L-1` carry data, `L` is the platform lane count `Lanes(d)`). -/

/-- Lane-wise vector addition (`hwy Add`). -/
def vadd (v w : Nat → ℝ) : Nat → ℝ := fun j => v j + w j

/-- Lane-wise vector multiplication (`hwy Mul`). -/
def vmul (v w : Nat → ℝ) : Nat → ℝ := fun j => v j * w j

/-- The all-zero vector (`Zero(d)`). -/
def vzero : Nat → ℝ := fun _ => 0

/-- One full-width vector iteration of the fast loop at block `k` of row `y`:
`d1 = Load(row + x); d2 = d1*d1*d1; sums0 += d2; d3 = d2*d2; sums1 += d3;
d4 = d3*d3; sums2 += d4` (lane `j` reads pixel `x = k*L + j`). -/
def vecStep (dm : ImageF) (L y : Nat) (vs : (Nat → ℝ) × (Nat → ℝ) × (Nat → ℝ)) (k : Nat) :
    (Nat → ℝ) × (Nat → ℝ) × (Nat → ℝ) :=
  let d1 : Nat → ℝ := fun j => dm.data y (k * L + j)
  let d2 := vmul d1 (vmul d1 d1)
  let s0 := vadd vs.1 d2
  let d3 := vmul d2 d2
  let s1 := vadd vs.2.1 d3
  let d4 := vmul d3 d3
  (s0, s1, vadd vs.2.2 d4)

/-- One pixel of the fast path's scalar leftover loop:
`d2 = d1*d1*d1; sum1[0] += d2; d2 *= d2; sum1[1] += d2; d2 *= d2; sum1[2] += d2`. -/
def cubeStep (s : ℝ × ℝ × ℝ) (d1 : ℝ) : ℝ × ℝ × ℝ :=
  let d2 := d1 * d1 * d1
  let s0 := s.1 + d2
  let d2a := d2 * d2
  let s1 := s.2.1 + d2a
  let d2b := d2a * d2a
  (s0, s1, s.2.2 + d2b)

/-- One row of the fast path: the vector loop covers blocks `k < xsize / L`
(loop guard `x + Lanes(d) <= xsize`), its per-row sums are added lane-wise to
the running totals `sum_totals0..2`, and the leftover pixels
`x ∈ [L*(xsize/L), xsize)` go through the scalar loop into `sum1[0..2]`. -/
def fastRow (dm : ImageF) (L : Nat)
    (st : ((Nat → ℝ) × (Nat → ℝ) × (Nat → ℝ)) × (ℝ × ℝ × ℝ)) (y : Nat) :
    ((Nat → ℝ) × (Nat → ℝ) × (Nat → ℝ)) × (ℝ × ℝ × ℝ) :=
  let q := dm.xsize / L
  let rv := (List.range q).foldl (vecStep dm L y) (vzero, vzero, vzero)
  ((vadd st.1.1 rv.1, vadd st.1.2.1 rv.2.1, vadd st.1.2.2 rv.2.2),
   (List.range' (q * L) (dm.xsize - q * L)).foldl (fun s x => cubeStep s (dm.data y x)) st.2)

/-- Fast-path accumulation state after all rows: vector totals
`sum_totals0..2` and scalar leftover sums `sum1[0..2]`. -/
def fastState (dm : ImageF) (L : Nat) :
    ((Nat → ℝ) × (Nat → ℝ) × (Nat → ℝ)) × (ℝ × ℝ × ℝ) :=
  (List.range dm.ysize).foldl (fastRow dm L) ((vzero, vzero, vzero), (0, 0, 0))

/-- Model of `GetLane(SumOfLanes(d, v))`: horizontal sum of the `L` lanes. -/
def sumLanes (L : Nat) (v : Nat → ℝ) : ℝ := ∑ j ∈ Finset.range L, v j

/-- Fast path result:
`v = Σ_i pow(onePerPixels * (sum1[i] + GetLane(SumOfLanes(sum_totals_i))), 1/(p * 2^i)); v /= 3`. -/
noncomputable def computeDistancePFast (dm : ImageF) (L : Nat) (p : ℝ) : ℝ :=
  let onePerPixels : ℝ := 1 / ((dm.ysize * dm.xsize : Nat) : ℝ)
  let st := fastState dm L
  (Real.rpow (onePerPixels * (st.2.1 + sumLanes L st.1.1)) (1 / (p * 1)) +
   Real.rpow (onePerPixels * (st.2.2.1 + sumLanes L st.1.2.1)) (1 / (p * 2)) +
   Real.rpow (onePerPixels * (st.2.2.2 + sumLanes L st.1.2.2)) (1 / (p * 4))) / 3

/-- Model of `ComputeDistanceP(distmap, params, p)` — metrics.cc lines 46..149.
Zero-sized maps return `0.0` immediately; otherwise `|p - 3.0| < 1E-6`
selects the fast vectorized path (lane count `L`), anything else the generic
scalar path.  `params` is never read. -/
noncomputable def computeDistanceP (dm : ImageF) (params : ButteraugliParams) (L : Nat)
    (p : ℝ) : ℝ :=
  if dm.xsize = 0 ∨ dm.ysize = 0 then 0
  else if |p - 3| < 1e-6 then computeDistancePFast dm L p
  else computeDistancePGeneric dm p

end Metrics

namespace Metrics

/-- Sum of a mapped `List.range` as a `Finset.range` sum. -/
theorem sum_map_range (f : Nat → ℝ) (n : Nat) :
    ((List.range n).map f).sum = ∑ i ∈ Finset.range n, f i := by
  induction n with
  | zero => simp
  | succ n ih =>
    rw [List.range_succ, List.map_append, List.sum_append, Finset.sum_range_succ, ih]
    simp

/-- Cube `d³` of a pixel value, as the source computes it in the fast path. -/
def cube (d : ℝ) : ℝ := d * d * d

/-! ### Concrete test fixtures -/

/-- A 1×1 difference map holding the value 1. -/
def testMap : ImageF := ⟨1, 1, fun _ _ => 1⟩

/-- A 1×1 difference map holding the value 4. -/
def constMap4 : ImageF := ⟨1, 1, fun _ _ => 4⟩

/-- A difference map with zero width. -/
def emptyWidthMap : ImageF := ⟨0, 7, fun _ _ => 3⟩

/-- A second parameter bag, distinct from the default one. -/
noncomputable def altButteraugliParams : ButteraugliParams := ⟨2, 3, 250⟩

/-- A 1×1 three-channel packed input. -/
def ppfA : PPF := ⟨1, 1, 3⟩

/-- A 2×1 three-channel packed input (width differs from `ppfA`). -/
def ppfW : PPF := ⟨2, 1, 3⟩

/-- A 1×1 grayscale packed input (channel count differs from `ppfA`). -/
def ppfGray : PPF := ⟨1, 1, 1⟩

/-- The all-zero planar image. -/
def imgZero : Image3 := ⟨fun _ _ _ => 0⟩

/-- A well-behaved environment: every collaborator succeeds, inputs are
reported as already gamma-sRGB encoded, transforms are identities, the
comparator yields `testMap`. -/
def envOK : Env where
  convert := fun _ => .ok imgZero
  getEnc := fun _ => .ok (ColorEnc.srgb false)
  intensity := fun _ _ => 80
  transform := fun _ _ img _ => .ok img
  comparatorMake := fun _ _ => .ok fun _ => .ok testMap
  scoreFromDiffmap := fun _ _ => 0

/-- An environment whose packed-to-planar conversion always fails. -/
def envBadConv : Env :=
  { envOK with convert := fun _ => .error .convFail }

/-! ### ComputeSumOfSquares — metrics.cc lines 151..220 -/

/-- The fixed YUV-like projection matrix `yuvmatrix[3][3]`. -/
noncomputable def yuvmatrix (j k : Nat) : ℝ :=
  if j = 0 then (if k = 0 then 0.299 else if k = 1 then 0.587 else 0.114)
  else if j = 1 then (if k = 0 then -0.14713 else if k = 1 then -0.28886 else 0.436)
  else (if k = 0 then 0.615 else if k = 1 then -0.51499 else -0.10001)

/-- One pixel of the sum-of-squares loop: `cdiff[k] = row0[k][x] - row1[k][x]`,
`yuvdiff[j] = Σ_k yuvmatrix[j][k] * cdiff[k]`,
`sum_of_squares[j] += yuvdiff[j] * yuvdiff[j]`. -/
noncomputable def sosPixel (A B : Image3) (y x : Nat) (s : ℝ × ℝ × ℝ) : ℝ × ℝ × ℝ :=
  let cdiff : Nat → ℝ := fun k => A.plane k y x - B.plane k y x
  let yuvdiff : Nat → ℝ := fun j => ∑ k ∈ Finset.range 3, yuvmatrix j k * cdiff k
  (s.1 + yuvdiff 0 * yuvdiff 0, s.2.1 + yuvdiff 1 * yuvdiff 1, s.2.2 + yuvdiff 2 * yuvdiff 2)

/-- The accumulation loop of `ComputeSumOfSquares` over all pixels in
row-major order, starting from the `{0, 0, 0}` reset. -/
noncomputable def sumOfSquaresCore (xsize ysize : Nat) (A B : Image3) : ℝ × ℝ × ℝ :=
  (List.range ysize).foldl
    (fun s y => (List.range xsize).foldl (fun s x => sosPixel A B y x s) s) (0, 0, 0)

/-- The fallible prefix of `ComputeSumOfSquares`: convert both inputs to
planar form, query both encodings, and transform each image that is not
already in the gamma-encoded sRGB target. -/
def srgbSOSPrep (env : Env) (a b : PPF) : Except Err (Image3 × Image3) := do
  let isGray := a.numColorChannels == 1
  let cDesired := ColorEnc.srgb isGray
  let srgb0 ← env.convert a
  let srgb1 ← env.convert b
  let cEncA ← env.getEnc a
  let cEncB ← env.getEnc b
  let intensityA := env.intensity a cEncA
  let intensityB := env.intensity b cEncB
  let srgb0 ← if cEncA ≠ cDesired then env.transform cEncA intensityA srgb0 cDesired
              else pure srgb0
  let srgb1 ← if cEncB ≠ cDesired then env.transform cEncB intensityB srgb1 cDesired
              else pure srgb1
  pure (srgb0, srgb1)

/-- Model of `ComputeSumOfSquares(mm, a, b, cms, sum_of_squares)`: the returned triple
is the final contents of `sum_of_squares[0..2]`, which are pre-set to the
max-representable-double sentinel and only reset to `0` (then accumulated)
once every conversion and transform has succeeded. -/
noncomputable def computeSumOfSquares (env : Env) (a b : PPF) :
    Except Err Unit × (ℝ × ℝ × ℝ) :=
  match srgbSOSPrep env a b with
  | .error e => (.error e, (doubleMax, doubleMax, doubleMax))
  | .ok (srgb0, srgb1) => (.ok (), sumOfSquaresCore a.xsize a.ysize srgb0 srgb1)

/-! ### ComputePSNR — metrics.cc lines 328..357 -/

/-- Per-channel PSNR: `rmse = sqrt(sum/pixels)`;
`psnr = sum == 0 ? 99.99 : 20 * log10(1/rmse)`. -/
noncomputable def channelPsnr (sum : ℝ) (inputPixels : Nat) : ℝ :=
  let rmse := Real.sqrt (sum / inputPixels)
  if sum = 0 then 99.99 else 20 * Real.logb 10 (1 / rmse)

/-- The weighted average over `kChannelWeights[3] = {6/8, 1/8, 1/8}`. -/
noncomputable def psnrFromSums (s : ℝ × ℝ × ℝ) (inputPixels : Nat) : ℝ :=
  6 / 8 * channelPsnr s.1 inputPixels + 1 / 8 * channelPsnr s.2.1 inputPixels +
    1 / 8 * channelPsnr s.2.2 inputPixels

/-- Model of `ComputePSNR(mm, a, b, cms)`: a lenient entry point returning the score
plus the diagnostic it printed to stderr (`none` on success). -/
noncomputable def computePSNR (env : Env) (a b : PPF) : Option String × ℝ :=
  if a.xsize ≠ b.xsize ∨ a.ysize ≠ b.ysize then
    (some "Images must have the same size for PSNR.", 0)
  else if a.numColorChannels ≠ b.numColorChannels then
    (some "Grayscale vs RGB comparison not supported.", 0)
  else
    match computeSumOfSquares env a b with
    | (.error _, _) => (some "ComputeSumOfSquares failed.", 0)
    | (.ok _, s) => (none, psnrFromSums s (a.xsize * a.ysize))

/-! ### ButteraugliDistance and Butteraugli3Norm — metrics.cc lines 231..325 -/

/-- The strict `ButteraugliDistance` (`Status` overload, lines 251..295) with
`ComputeButteraugli` (lines 231..247) inlined: dimension and channel guards,
conversion to planar form, normalization to linear sRGB, then the comparator.
Returns the score and the produced difference map. -/
def butteraugliDistanceStrict (env : Env) (a b : PPF) (params : ButteraugliParams) :
    Except Err (ℝ × ImageF) :=
  if a.xsize ≠ b.xsize ∨ a.ysize ≠ b.ysize then .error .sizeMismatch
  else if a.numColorChannels ≠ b.numColorChannels then .error .channelMismatch
  else do
    let isGray := a.numColorChannels == 1
    let cDesired := ColorEnc.linearSrgb isGray
    let rgb0 ← env.convert a
    let rgb1 ← env.convert b
    let cEncA ← env.getEnc a
    let cEncB ← env.getEnc b
    let intensityA := env.intensity a cEncA
    let intensityB := env.intensity b cEncB
    let rgb0 ← if cEncA ≠ cDesired then env.transform cEncA intensityA rgb0 cDesired
               else pure rgb0
    let rgb1 ← if cEncB ≠ cDesired then env.transform cEncB intensityB rgb1 cDesired
               else pure rgb1
    let comparator ← env.comparatorMake rgb0 params
    let tempDistmap ← comparator rgb1
    let score := env.scoreFromDiffmap tempDistmap params
    pure (score, tempDistmap)

/-- The lenient score-only `ButteraugliDistance` wrapper (lines 297..309):
on failure it prints a diagnostic and returns the max-representable float,
leaving the caller's distmap argument (`distmap0`) untouched; on success it
passes the score and distmap through. -/
noncomputable def butteraugliDistanceLenient (env : Env) (a b : PPF)
    (params : ButteraugliParams) (distmap0 : ImageF) : Option String × ℝ × ImageF :=
  match butteraugliDistanceStrict env a b params with
  | .error _ => (some "ButteraugliDistance failed.", floatMax, distmap0)
  | .ok (score, dm) => (none, score, dm)

/-- Model of `Butteraugli3Norm(mm, a, b, pool)` (lines 317..325): calls the lenient
wrapper on a default-constructed distmap, ignores its result, and pools the
resulting map with `p = 3`. -/
noncomputable def butteraugli3Norm (env : Env) (L : Nat) (a b : PPF) : ℝ :=
  let params := defaultButteraugliParams
  let distmap := ImageF.empty
  let r := butteraugliDistanceLenient env a b params distmap
  computeDistanceP r.2.2 params L 3

end Metrics

namespace Metrics

/-- Closed form of the generic per-pixel accumulation over a pixel list. -/
theorem powStep_foldl (p : ℝ) (l : List ℝ) (s : ℝ × ℝ × ℝ) :
    l.foldl (powStep p) s =
      (s.1 + (l.map fun d => Real.rpow d p).sum,
       s.2.1 + (l.map fun d => (Real.rpow d p) ^ 2).sum,
       s.2.2 + (l.map fun d => (Real.rpow d p) ^ 4).sum) := by
  induction l generalizing s with
  | nil => simp
  | cons d tl ih =>
    rw [List.foldl_cons, ih]
    simp only [powStep, List.map_cons, List.sum_cons]
    refine Prod.ext ?_ (Prod.ext ?_ ?_) <;> (simp only []; ring)

/-- Closed form of the fast path's scalar leftover accumulation. -/
theorem cubeStep_foldl (l : List ℝ) (s : ℝ × ℝ × ℝ) :
    l.foldl cubeStep s =
      (s.1 + (l.map fun d => cube d).sum,
       s.2.1 + (l.map fun d => cube d ^ 2).sum,
       s.2.2 + (l.map fun d => cube d ^ 4).sum) := by
  induction l generalizing s with
  | nil => simp
  | cons d tl ih =>
    rw [List.foldl_cons, ih]
    simp only [cubeStep, cube, List.map_cons, List.sum_cons]
    refine Prod.ext ?_ (Prod.ext ?_ ?_) <;> (simp only []; ring)

/-- Sum of a mapped `List.range'` as an offset `Finset.range` sum. -/
theorem sum_map_range' (f : Nat → ℝ) (a n : Nat) :
    ((List.range' a n).map f).sum = ∑ i ∈ Finset.range n, f (a + i) := by
  induction n with
  | zero => simp
  | succ n ih =>
    rw [List.range'_concat, List.map_append, List.sum_append, Finset.sum_range_succ, ih]
    simp

/-- Closed form of one row's lane-parallel accumulation: lane `j` of each
vector register collects the blocks `k < q` at offset `j`. -/
theorem vecStep_foldl (dm : ImageF) (L y : Nat) (q : Nat)
    (vs : (Nat → ℝ) × (Nat → ℝ) × (Nat → ℝ)) :
    (List.range q).foldl (vecStep dm L y) vs =
      (fun j => vs.1 j + ∑ k ∈ Finset.range q, cube (dm.data y (k * L + j)),
       fun j => vs.2.1 j + ∑ k ∈ Finset.range q, cube (dm.data y (k * L + j)) ^ 2,
       fun j => vs.2.2 j + ∑ k ∈ Finset.range q, cube (dm.data y (k * L + j)) ^ 4) := by
  induction q generalizing vs with
  | zero => simp
  | succ q ih =>
    rw [List.range_succ, List.foldl_append, ih, List.foldl_cons, List.foldl_nil]
    simp only [vecStep, cube]
    refine Prod.ext ?_ (Prod.ext ?_ ?_) <;>
      (funext j; simp only [vadd, vmul, Finset.sum_range_succ]; ring)

/-- Closed form of the generic path's running sums as double sums over the
pixel grid. -/
theorem genericSums_eq (dm : ImageF) (p : ℝ) :
    genericSums dm p =
      (∑ y ∈ Finset.range dm.ysize, ∑ x ∈ Finset.range dm.xsize,
         Real.rpow (dm.data y x) p,
       ∑ y ∈ Finset.range dm.ysize, ∑ x ∈ Finset.range dm.xsize,
         Real.rpow (dm.data y x) p ^ 2,
       ∑ y ∈ Finset.range dm.ysize, ∑ x ∈ Finset.range dm.xsize,
         Real.rpow (dm.data y x) p ^ 4) := by
  have aux : ∀ (n : Nat) (s : ℝ × ℝ × ℝ),
      (List.range n).foldl (fun s y => (rowPixels dm y).foldl (powStep p) s) s =
        (s.1 + ∑ y ∈ Finset.range n, ∑ x ∈ Finset.range dm.xsize,
           Real.rpow (dm.data y x) p,
         s.2.1 + ∑ y ∈ Finset.range n, ∑ x ∈ Finset.range dm.xsize,
           Real.rpow (dm.data y x) p ^ 2,
         s.2.2 + ∑ y ∈ Finset.range n, ∑ x ∈ Finset.range dm.xsize,
           Real.rpow (dm.data y x) p ^ 4) := by
    intro n
    induction n with
    | zero => intro s; simp
    | succ n ih =>
      intro s
      rw [List.range_succ, List.foldl_append, ih, List.foldl_cons, List.foldl_nil,
        powStep_foldl]
      simp only [rowPixels, List.map_map, Function.comp_def, sum_map_range]
      refine Prod.ext ?_ (Prod.ext ?_ ?_) <;>
        (simp only [Finset.sum_range_succ]; ring)
  rw [genericSums, aux dm.ysize (0, 0, 0)]
  simp

/-- Closed form of the fast path's state after all rows. -/
theorem fastState_eq (dm : ImageF) (L : Nat) :
    fastState dm L =
      ((fun j => ∑ y ∈ Finset.range dm.ysize, ∑ k ∈ Finset.range (dm.xsize / L),
          cube (dm.data y (k * L + j)),
        fun j => ∑ y ∈ Finset.range dm.ysize, ∑ k ∈ Finset.range (dm.xsize / L),
          cube (dm.data y (k * L + j)) ^ 2,
        fun j => ∑ y ∈ Finset.range dm.ysize, ∑ k ∈ Finset.range (dm.xsize / L),
          cube (dm.data y (k * L + j)) ^ 4),
       (∑ y ∈ Finset.range dm.ysize, ∑ i ∈ Finset.range (dm.xsize - dm.xsize / L * L),
          cube (dm.data y (dm.xsize / L * L + i)),
        ∑ y ∈ Finset.range dm.ysize, ∑ i ∈ Finset.range (dm.xsize - dm.xsize / L * L),
          cube (dm.data y (dm.xsize / L * L + i)) ^ 2,
        ∑ y ∈ Finset.range dm.ysize, ∑ i ∈ Finset.range (dm.xsize - dm.xsize / L * L),
          cube (dm.data y (dm.xsize / L * L + i)) ^ 4)) := by
  have aux : ∀ (n : Nat) st,
      (List.range n).foldl (fastRow dm L) st =
        ((fun j => st.1.1 j + ∑ y ∈ Finset.range n, ∑ k ∈ Finset.range (dm.xsize / L),
            cube (dm.data y (k * L + j)),
          fun j => st.1.2.1 j + ∑ y ∈ Finset.range n, ∑ k ∈ Finset.range (dm.xsize / L),
            cube (dm.data y (k * L + j)) ^ 2,
          fun j => st.1.2.2 j + ∑ y ∈ Finset.range n, ∑ k ∈ Finset.range (dm.xsize / L),
            cube (dm.data y (k * L + j)) ^ 4),
         (st.2.1 + ∑ y ∈ Finset.range n, ∑ i ∈ Finset.range (dm.xsize - dm.xsize / L * L),
            cube (dm.data y (dm.xsize / L * L + i)),
          st.2.2.1 + ∑ y ∈ Finset.range n, ∑ i ∈ Finset.range (dm.xsize - dm.xsize / L * L),
            cube (dm.data y (dm.xsize / L * L + i)) ^ 2,
          st.2.2.2 + ∑ y ∈ Finset.range n, ∑ i ∈ Finset.range (dm.xsize - dm.xsize / L * L),
            cube (dm.data y (dm.xsize / L * L + i)) ^ 4)) := by
    intro n
    induction n with
    | zero => intro st; simp
    | succ n ih =>
      intro st
      rw [List.range_succ, List.foldl_append, ih, List.foldl_cons, List.foldl_nil]
      simp only [fastRow, vecStep_foldl, vadd, vzero]
      have hfold : ∀ (y : Nat) (sc : ℝ × ℝ × ℝ),
          (List.range' (dm.xsize / L * L) (dm.xsize - dm.xsize / L * L)).foldl
              (fun s x => cubeStep s (dm.data y x)) sc =
            (sc.1 + ∑ i ∈ Finset.range (dm.xsize - dm.xsize / L * L),
               cube (dm.data y (dm.xsize / L * L + i)),
             sc.2.1 + ∑ i ∈ Finset.range (dm.xsize - dm.xsize / L * L),
               cube (dm.data y (dm.xsize / L * L + i)) ^ 2,
             sc.2.2 + ∑ i ∈ Finset.range (dm.xsize - dm.xsize / L * L),
               cube (dm.data y (dm.xsize / L * L + i)) ^ 4) := by
        intro y sc
        rw [← List.foldl_map (f := dm.data y) (g := cubeStep), cubeStep_foldl]
        simp only [List.map_map, Function.comp_def, sum_map_range']
      rw [hfold]
      refine Prod.ext (Prod.ext ?_ (Prod.ext ?_ ?_)) (Prod.ext ?_ (Prod.ext ?_ ?_)) <;>
        first
        | (funext j; simp only [vadd, Finset.sum_range_succ]; ring)
        | (simp only [Finset.sum_range_succ]; ring)
  rw [fastState, aux dm.ysize _]
  simp [vzero]

/-- Summing lane offsets over whole blocks covers exactly the first `q * L`
indices. -/
theorem sum_blocks (g : Nat → ℝ) (L : Nat) (q : Nat) :
    ∑ k ∈ Finset.range q, ∑ j ∈ Finset.range L, g (k * L + j) =
      ∑ x ∈ Finset.range (q * L), g x := by
  induction q with
  | zero => simp
  | succ q ih =>
    rw [Finset.sum_range_succ, ih, Nat.succ_mul, Finset.sum_range_add]

/-- Lane-covered pixels plus leftover pixels of a row recombine into the full
row sum. -/
theorem row_split (g : Nat → ℝ) (xs L : Nat) :
    (∑ i ∈ Finset.range (xs - xs / L * L), g (xs / L * L + i)) +
      ∑ j ∈ Finset.range L, ∑ k ∈ Finset.range (xs / L), g (k * L + j) =
      ∑ x ∈ Finset.range xs, g x := by
  rw [Finset.sum_comm, sum_blocks]
  have h : xs / L * L ≤ xs := Nat.div_mul_le_self xs L
  calc (∑ i ∈ Finset.range (xs - xs / L * L), g (xs / L * L + i)) +
        ∑ x ∈ Finset.range (xs / L * L), g x
      = (∑ x ∈ Finset.range (xs / L * L), g x) +
        ∑ i ∈ Finset.range (xs - xs / L * L), g (xs / L * L + i) := by ring
    _ = ∑ x ∈ Finset.range (xs / L * L + (xs - xs / L * L)), g x :=
        (Finset.sum_range_add g _ _).symm
    _ = ∑ x ∈ Finset.range xs, g x := by rw [Nat.add_sub_cancel' h]

/-- Each fast-path total (leftover sum plus horizontal lane sum) equals the
corresponding plain sum over the whole pixel grid. -/
theorem fastTotal_eq (dm : ImageF) (L : Nat) (f : ℝ → ℝ) :
    ∀ (sc lane : Nat → ℝ),
      (∀ y, sc y = ∑ i ∈ Finset.range (dm.xsize - dm.xsize / L * L),
        f (dm.data y (dm.xsize / L * L + i))) →
      (∀ j, lane j = ∑ y ∈ Finset.range dm.ysize, ∑ k ∈ Finset.range (dm.xsize / L),
        f (dm.data y (k * L + j))) →
      (∑ y ∈ Finset.range dm.ysize, sc y) + ∑ j ∈ Finset.range L, lane j =
        ∑ y ∈ Finset.range dm.ysize, ∑ x ∈ Finset.range dm.xsize, f (dm.data y x) := by
  intro sc lane hsc hlane
  have h1 : ∑ j ∈ Finset.range L, lane j =
      ∑ y ∈ Finset.range dm.ysize, ∑ j ∈ Finset.range L,
        ∑ k ∈ Finset.range (dm.xsize / L), f (dm.data y (k * L + j)) := by
    simp only [hlane]
    exact Finset.sum_comm
  rw [h1, ← Finset.sum_add_distrib]
  refine Finset.sum_congr rfl fun y _ => ?_
  rw [hsc]
  exact row_split (fun x => f (dm.data y x)) dm.xsize L

/-- Agreement of `pow(d, 3.0)` with the fast path's `d*d*d`. -/
theorem rpow_three (d : ℝ) : Real.rpow d 3 = cube d := by
  show d ^ (3 : ℝ) = cube d
  rw [show (3 : ℝ) = ((3 : Nat) : ℝ) by norm_num, Real.rpow_natCast, cube]
  ring

/-- The fast vectorized path at `p = 3` computes exactly the generic path's
closed-form value at `p = 3`, for any lane count. -/
theorem fast_eq_generic (dm : ImageF) (L : Nat) :
    computeDistancePFast dm L 3 = computeDistancePGeneric dm 3 := by
  rw [computeDistancePFast, computeDistancePGeneric, genericSums_eq, fastState_eq]
  have h1 := fastTotal_eq dm L (fun d => cube d) _ _ (fun y => rfl) (fun j => rfl)
  have h2 := fastTotal_eq dm L (fun d => cube d ^ 2) _ _ (fun y => rfl) (fun j => rfl)
  have h3 := fastTotal_eq dm L (fun d => cube d ^ 4) _ _ (fun y => rfl) (fun j => rfl)
  simp only [sumLanes, rpow_three]
  rw [h1, h2, h3]

/-- Empty-map guard: the zero check precedes both paths. -/
theorem computeDistanceP_empty (dm : ImageF) (pr : ButteraugliParams) (L : Nat) (p : ℝ)
    (h : dm.xsize = 0 ∨ dm.ysize = 0) : computeDistanceP dm pr L p = 0 := by
  rw [computeDistanceP, if_pos h]

/-- On non-empty maps `ComputeDistanceP` dispatches on `|p - 3| < 1E-6`. -/
theorem computeDistanceP_dispatch (dm : ImageF) (pr : ButteraugliParams) (L : Nat) (p : ℝ)
    (hx : 0 < dm.xsize) (hy : 0 < dm.ysize) :
    computeDistanceP dm pr L p =
      if |p - 3| < 1e-6 then computeDistancePFast dm L p
      else computeDistancePGeneric dm p := by
  rw [computeDistanceP, if_neg]
  push_neg
  exact ⟨hx.ne', hy.ne'⟩

/-- Un-pooling a power: `((v^p)^m)^(1/(p*m)) = v` for `v ≥ 0`, `p ≠ 0`, `m ≠ 0`. -/
theorem pow_pool (v p : ℝ) (hv : 0 ≤ v) (hp : p ≠ 0) (m : Nat) (hm : (m : ℝ) ≠ 0) :
    Real.rpow (Real.rpow v p ^ m) (1 / (p * m)) = v := by
  have hvp : (0 : ℝ) ≤ v ^ p := Real.rpow_nonneg hv p
  have h1 : ((v ^ p : ℝ) ^ m : ℝ) = (v ^ p : ℝ) ^ (m : ℝ) := (Real.rpow_natCast _ m).symm
  show ((v ^ p : ℝ) ^ m : ℝ) ^ (1 / (p * (m : ℝ))) = v
  rw [h1, ← Real.rpow_mul hvp, ← Real.rpow_mul hv]
  have : p * ((m : ℝ) * (1 / (p * (m : ℝ)))) = 1 := by field_simp
  rw [this, Real.rpow_one]

/-- Double sum of a function of the pixel value over a constant map. -/
theorem const_sum (dm : ImageF) (v : ℝ)
    (hconst : ∀ y < dm.ysize, ∀ x < dm.xsize, dm.data y x = v) (c : ℝ → ℝ) :
    (∑ y ∈ Finset.range dm.ysize, ∑ x ∈ Finset.range dm.xsize, c (dm.data y x)) =
      ((dm.ysize * dm.xsize : Nat) : ℝ) * c v := by
  have h : (∑ y ∈ Finset.range dm.ysize, ∑ x ∈ Finset.range dm.xsize, c (dm.data y x)) =
      ∑ _y ∈ Finset.range dm.ysize, ∑ _x ∈ Finset.range dm.xsize, c v := by
    refine Finset.sum_congr rfl fun y hy => Finset.sum_congr rfl fun x hx => ?_
    rw [hconst y (Finset.mem_range.mp hy) x (Finset.mem_range.mp hx)]
  rw [h]
  simp only [Finset.sum_const, Finset.card_range, nsmul_eq_mul]
  push_cast
  ring

/-- The generic path returns exactly `v` on a constant map of non-negative
value `v`, for every non-zero exponent. -/
theorem generic_const (dm : ImageF) (p v : ℝ) (hv : 0 ≤ v) (hp : p ≠ 0)
    (hx : 0 < dm.xsize) (hy : 0 < dm.ysize)
    (hconst : ∀ y < dm.ysize, ∀ x < dm.xsize, dm.data y x = v) :
    computeDistancePGeneric dm p = v := by
  rw [computeDistancePGeneric, genericSums_eq]
  have hN : ((dm.ysize * dm.xsize : Nat) : ℝ) ≠ 0 := by
    push_cast
    positivity
  have hred : ∀ t : ℝ, (1 / ((dm.ysize * dm.xsize : Nat) : ℝ)) *
      (((dm.ysize * dm.xsize : Nat) : ℝ) * t) = t := by
    intro t
    field_simp
  simp only [const_sum dm v hconst (fun d => Real.rpow d p),
    const_sum dm v hconst (fun d => Real.rpow d p ^ 2),
    const_sum dm v hconst (fun d => Real.rpow d p ^ 4), hred]
  have e1 : Real.rpow (Real.rpow v p) (1 / (p * 1)) = v := by
    have := pow_pool v p hv hp 1 (by norm_num)
    simpa using this
  have e2 : Real.rpow (Real.rpow v p ^ 2) (1 / (p * 2)) = v := by
    have := pow_pool v p hv hp 2 (by norm_num)
    simpa using this
  have e4 : Real.rpow (Real.rpow v p ^ 4) (1 / (p * 4)) = v := by
    have := pow_pool v p hv hp 4 (by norm_num)
    simpa using this
  rw [e1, e2, e4]
  ring

/-- Closed form of the sum-of-squares accumulation loop: for each of the
three channels, the sum over all pixels of the squared projected difference. -/
theorem sumOfSquaresCore_eq (xs ys : Nat) (A B : Image3) :
    sumOfSquaresCore xs ys A B =
      (∑ y ∈ Finset.range ys, ∑ x ∈ Finset.range xs,
         (∑ k ∈ Finset.range 3, yuvmatrix 0 k * (A.plane k y x - B.plane k y x)) ^ 2,
       ∑ y ∈ Finset.range ys, ∑ x ∈ Finset.range xs,
         (∑ k ∈ Finset.range 3, yuvmatrix 1 k * (A.plane k y x - B.plane k y x)) ^ 2,
       ∑ y ∈ Finset.range ys, ∑ x ∈ Finset.range xs,
         (∑ k ∈ Finset.range 3, yuvmatrix 2 k * (A.plane k y x - B.plane k y x)) ^ 2) := by
  have inner : ∀ (y n : Nat) (s : ℝ × ℝ × ℝ),
      (List.range n).foldl (fun s x => sosPixel A B y x s) s =
        (s.1 + ∑ x ∈ Finset.range n,
           (∑ k ∈ Finset.range 3, yuvmatrix 0 k * (A.plane k y x - B.plane k y x)) ^ 2,
         s.2.1 + ∑ x ∈ Finset.range n,
           (∑ k ∈ Finset.range 3, yuvmatrix 1 k * (A.plane k y x - B.plane k y x)) ^ 2,
         s.2.2 + ∑ x ∈ Finset.range n,
           (∑ k ∈ Finset.range 3, yuvmatrix 2 k * (A.plane k y x - B.plane k y x)) ^ 2) := by
    intro y n
    induction n with
    | zero => intro s; simp
    | succ n ih =>
      intro s
      rw [List.range_succ, List.foldl_append, ih, List.foldl_cons, List.foldl_nil]
      simp only [sosPixel]
      refine Prod.ext ?_ (Prod.ext ?_ ?_) <;>
        (simp only [Finset.sum_range_succ]; ring)
  have outer : ∀ (n : Nat) (s : ℝ × ℝ × ℝ),
      (List.range n).foldl
          (fun s y => (List.range xs).foldl (fun s x => sosPixel A B y x s) s) s =
        (s.1 + ∑ y ∈ Finset.range n, ∑ x ∈ Finset.range xs,
           (∑ k ∈ Finset.range 3, yuvmatrix 0 k * (A.plane k y x - B.plane k y x)) ^ 2,
         s.2.1 + ∑ y ∈ Finset.range n, ∑ x ∈ Finset.range xs,
           (∑ k ∈ Finset.range 3, yuvmatrix 1 k * (A.plane k y x - B.plane k y x)) ^ 2,
         s.2.2 + ∑ y ∈ Finset.range n, ∑ x ∈ Finset.range xs,
           (∑ k ∈ Finset.range 3, yuvmatrix 2 k * (A.plane k y x - B.plane k y x)) ^ 2) := by
    intro n
    induction n with
    | zero => intro s; simp
    | succ n ih =>
      intro s
      rw [List.range_succ, List.foldl_append, ih, List.foldl_cons, List.foldl_nil, inner]
      refine Prod.ext ?_ (Prod.ext ?_ ?_) <;>
        (simp only [Finset.sum_range_succ]; ring)
  rw [sumOfSquaresCore, outer ys (0, 0, 0)]
  simp

/-- Comparing an image with itself accumulates zero in every channel. -/
theorem sumOfSquaresCore_self (xs ys : Nat) (A : Image3) :
    sumOfSquaresCore xs ys A A = (0, 0, 0) := by
  rw [sumOfSquaresCore_eq]
  simp

/-- Running the fallible sum-of-squares prefix on a pair of identical inputs
yields a pair of identical images. -/
theorem sosPrep_self (env : Env) (a : PPF) (A B : Image3)
    (h : srgbSOSPrep env a a = .ok (A, B)) : A = B := by
  unfold srgbSOSPrep at h
  cases hc : env.convert a with
  | error e => simp [hc, bind, Except.bind] at h
  | ok img =>
    cases he : env.getEnc a with
    | error e => simp [hc, he, bind, Except.bind] at h
    | ok enc =>
      by_cases hne : enc ≠ ColorEnc.srgb (a.numColorChannels == 1)
      · cases ht : env.transform enc (env.intensity a enc) img
            (ColorEnc.srgb (a.numColorChannels == 1)) with
        | error e =>
          simp [hc, he, hne, ht, bind, Except.bind] at h
        | ok timg =>
          simp [hc, he, hne, ht, bind, Except.bind, pure, Except.pure] at h
          rw [← h.1, ← h.2]
      · simp [hc, he, hne, bind, Except.bind, pure, Except.pure] at h
        rw [← h.1, ← h.2]

/-- All-zero channel sums give the weighted 99.99 ceiling. -/
theorem psnrFromSums_zero (n : Nat) : psnrFromSums (0, 0, 0) n = 99.99 := by
  simp only [psnrFromSums, channelPsnr]
  norm_num

/-! ### Claim theorems -/

/-- C1: for every non-empty difference map (`N = width*height > 0`) and every
exponent `p` not within `1e-6` of `3.0`, `ComputeDistanceP` returns
`((S1/N)^(1/p) + (S2/N)^(1/(2p)) + (S4/N)^(1/(4p))) / 3`, where per pixel the
term `t = d^p` is added to `S1`, then `t` is squared and added to `S2`, then
squared again and added to `S4` (the embedding's `powStep` accumulates by
repeated squaring exactly as the source loop does, and `genericSums_eq`
identifies the run with these sums of `t`, `t²`, `t⁴`). -/
theorem claim_C1 (dm : ImageF) (pr : ButteraugliParams) (L : Nat) (p : ℝ)
    (hx : 0 < dm.xsize) (hy : 0 < dm.ysize) (hp : 1e-6 ≤ |p - 3|) :
    computeDistanceP dm pr L p =
      (Real.rpow ((∑ y ∈ Finset.range dm.ysize, ∑ x ∈ Finset.range dm.xsize,
          Real.rpow (dm.data y x) p) / ((dm.ysize * dm.xsize : Nat) : ℝ)) (1 / p) +
       Real.rpow ((∑ y ∈ Finset.range dm.ysize, ∑ x ∈ Finset.range dm.xsize,
          Real.rpow (dm.data y x) p ^ 2) / ((dm.ysize * dm.xsize : Nat) : ℝ)) (1 / (2 * p)) +
       Real.rpow ((∑ y ∈ Finset.range dm.ysize, ∑ x ∈ Finset.range dm.xsize,
          Real.rpow (dm.data y x) p ^ 4) / ((dm.ysize * dm.xsize : Nat) : ℝ)) (1 / (4 * p))) / 3 := by
  rw [computeDistanceP_dispatch dm pr L p hx hy, if_neg (not_lt.mpr hp),
    computeDistancePGeneric, genericSums_eq]
  have hb : ∀ S : ℝ, 1 / ((dm.ysize * dm.xsize : Nat) : ℝ) * S =
      S / ((dm.ysize * dm.xsize : Nat) : ℝ) := fun S => by ring
  have he2 : 1 / (p * 2) = 1 / (2 * p) := by ring
  have he4 : 1 / (p * 4) = 1 / (4 * p) := by ring
  simp only [hb, he2, he4, mul_one]

/-- C1 witness: a concrete 1×1 map with value 1 and `p = 5`. -/
theorem claim_C1_witness :
    0 < testMap.xsize ∧ 0 < testMap.ysize ∧ (1e-6 : ℝ) ≤ |5 - 3| ∧
      computeDistanceP testMap defaultButteraugliParams 1 5 =
        (Real.rpow ((∑ y ∈ Finset.range testMap.ysize, ∑ x ∈ Finset.range testMap.xsize,
            Real.rpow (testMap.data y x) 5) / ((testMap.ysize * testMap.xsize : Nat) : ℝ)) (1 / 5) +
         Real.rpow ((∑ y ∈ Finset.range testMap.ysize, ∑ x ∈ Finset.range testMap.xsize,
            Real.rpow (testMap.data y x) 5 ^ 2) / ((testMap.ysize * testMap.xsize : Nat) : ℝ)) (1 / (2 * 5)) +
         Real.rpow ((∑ y ∈ Finset.range testMap.ysize, ∑ x ∈ Finset.range testMap.xsize,
            Real.rpow (testMap.data y x) 5 ^ 4) / ((testMap.ysize * testMap.xsize : Nat) : ℝ)) (1 / (4 * 5))) / 3 :=
  ⟨by decide, by decide, by norm_num,
    claim_C1 testMap defaultButteraugliParams 1 5 (by decide) (by decide) (by norm_num)⟩

/-- C2: `ComputeDistanceP` selects the fast vectorized path exactly when
`|p - 3.0| < 1e-6` and the generic scalar path otherwise, and on the same
difference map the fast path at `p = 3` and the generic path at `p = 3`
compute exactly the same closed-form result (equality over exact reals, hence
within every relative tolerance), for any lane count; the fast path's
leftover pixels are handled by `cubeStep`, the scalar cube-then-repeated-
squaring loop. -/
theorem claim_C2 (dm : ImageF) (pr : ButteraugliParams) (L : Nat) (p : ℝ)
    (hx : 0 < dm.xsize) (hy : 0 < dm.ysize) :
    computeDistanceP dm pr L p =
      (if |p - 3| < 1e-6 then computeDistancePFast dm L p
       else computeDistancePGeneric dm p) ∧
    computeDistancePFast dm L 3 = computeDistancePGeneric dm 3 :=
  ⟨computeDistanceP_dispatch dm pr L p hx hy, fast_eq_generic dm L⟩

/-- C2 witness: concrete 1×1 map, lane count 1, `p = 3`. -/
theorem claim_C2_witness :
    0 < testMap.xsize ∧ 0 < testMap.ysize ∧
      (computeDistanceP testMap defaultButteraugliParams 1 3 =
        (if |(3 : ℝ) - 3| < 1e-6 then computeDistancePFast testMap 1 3
         else computeDistancePGeneric testMap 3) ∧
       computeDistancePFast testMap 1 3 = computeDistancePGeneric testMap 3) :=
  ⟨by decide, by decide, claim_C2 testMap defaultButteraugliParams 1 3 (by decide) (by decide)⟩

/-- C6: `ComputeDistanceP` returns exactly `0.0` on every difference map with
a zero dimension, for every exponent `p`, and its result never depends on the
`params` argument (the guard precedes both execution paths; `params` is never
read, so the value is invariant under replacing it). -/
theorem claim_C6 (dm : ImageF) (pr pr' : ButteraugliParams) (L : Nat) (p : ℝ)
    (h : dm.xsize = 0 ∨ dm.ysize = 0) :
    computeDistanceP dm pr L p = 0 ∧
    computeDistanceP dm pr L p = computeDistanceP dm pr' L p :=
  ⟨computeDistanceP_empty dm pr L p h, rfl⟩

/-- C6 witness: a 0×7 map with arbitrary exponent and two distinct parameter
bags. -/
theorem claim_C6_witness :
    (emptyWidthMap.xsize = 0 ∨ emptyWidthMap.ysize = 0) ∧
      (computeDistanceP emptyWidthMap defaultButteraugliParams 4 17 = 0 ∧
       computeDistanceP emptyWidthMap defaultButteraugliParams 4 17 =
         computeDistanceP emptyWidthMap altButteraugliParams 4 17) :=
  ⟨Or.inl rfl,
    claim_C6 emptyWidthMap defaultButteraugliParams altButteraugliParams 4 17 (Or.inl rfl)⟩

/-- C7 counterexample: the claim as stated fails for the exponent `p = 0`.
On the 1×1 constant map of value 4, `pow(d, 0) = 1`, so all three sums equal
`N` and the result is `1`, not `4` (the C++ computes the same:
`pow(4,0) = 1` and `pow(1, 1/0) = pow(1, inf) = 1`). -/
theorem claim_C7_counterexample :
    computeDistanceP constMap4 defaultButteraugliParams 1 0 ≠ 4 := by
  have h : computeDistanceP constMap4 defaultButteraugliParams 1 0 = 1 := by
    rw [computeDistanceP_dispatch constMap4 defaultButteraugliParams 1 0 (by decide) (by decide),
      if_neg (by rw [show (0 : ℝ) - 3 = -3 by ring, abs_neg, abs_of_nonneg (by norm_num)]; norm_num),
      computeDistancePGeneric, genericSums_eq]
    simp only [constMap4, Finset.sum_range_one, Real.rpow_eq_pow]
    rw [Real.rpow_zero]
    norm_num [Real.one_rpow]
  rw [h]
  norm_num

/-- C7 (amended): for every constant difference map in which all `N > 0`
pixels hold the same non-negative value `v`, `ComputeDistanceP` returns
exactly `v` independent of `N`, for every exponent `p` that is non-zero and
is either exactly `3` or at least `1e-6` away from `3` (all three pooled
generalized means degenerate to `v`); in particular every all-zero map
pools to `0` for such `p`.  (The original claim's "independent of the
exponent p" fails: at `p = 0` the result is `1`, and for `p` inside the
fast-path window but different from `3` the fast path cubes pixels while
un-pooling with `1/p`, so the result is `v^(3/p) ≠ v`.) -/
theorem claim_C7 (dm : ImageF) (pr : ButteraugliParams) (L : Nat) (v p : ℝ)
    (hv : 0 ≤ v) (hx : 0 < dm.xsize) (hy : 0 < dm.ysize)
    (hconst : ∀ y < dm.ysize, ∀ x < dm.xsize, dm.data y x = v)
    (hp : p ≠ 0) (hsel : p = 3 ∨ 1e-6 ≤ |p - 3|) :
    computeDistanceP dm pr L p = v := by
  rcases hsel with h3 | hfar
  · subst h3
    rw [computeDistanceP_dispatch dm pr L 3 hx hy, if_pos (by norm_num), fast_eq_generic]
    exact generic_const dm 3 v hv (by norm_num) hx hy hconst
  · rw [computeDistanceP_dispatch dm pr L p hx hy, if_neg (not_lt.mpr hfar)]
    exact generic_const dm p v hv hp hx hy hconst

/-- C7 witness: the 1×1 constant map of value 4 pools to 4 at `p = 3`. -/
theorem claim_C7_witness :
    (0 : ℝ) ≤ 4 ∧ 0 < constMap4.xsize ∧ 0 < constMap4.ysize ∧
      computeDistanceP constMap4 defaultButteraugliParams 2 3 = 4 :=
  ⟨by norm_num, by decide, by decide,
    claim_C7 constMap4 defaultButteraugliParams 2 4 3 (by norm_num) (by decide) (by decide)
      (fun _ _ _ _ => rfl) (by norm_num) (Or.inl rfl)⟩

/-- C3: whenever the fallible prefix of `ComputeSumOfSquares` succeeds with
final (converted and, where needed, transformed) images `A` and `B`, the
returned sums are, for each channel `j ∈ {0,1,2}`, the sum over all pixels of
`(Σ_k yuvmatrix[j][k] * (A[k] - B[k]))²` — the fixed 3×3 matrix applied to
the per-pixel difference, the three squares accumulated independently. -/
theorem claim_C3 (env : Env) (a b : PPF) (A B : Image3)
    (hprep : srgbSOSPrep env a b = .ok (A, B)) :
    (computeSumOfSquares env a b).2 =
      (∑ y ∈ Finset.range a.ysize, ∑ x ∈ Finset.range a.xsize,
         (∑ k ∈ Finset.range 3, yuvmatrix 0 k * (A.plane k y x - B.plane k y x)) ^ 2,
       ∑ y ∈ Finset.range a.ysize, ∑ x ∈ Finset.range a.xsize,
         (∑ k ∈ Finset.range 3, yuvmatrix 1 k * (A.plane k y x - B.plane k y x)) ^ 2,
       ∑ y ∈ Finset.range a.ysize, ∑ x ∈ Finset.range a.xsize,
         (∑ k ∈ Finset.range 3, yuvmatrix 2 k * (A.plane k y x - B.plane k y x)) ^ 2) := by
  unfold computeSumOfSquares
  rw [hprep]
  exact sumOfSquaresCore_eq a.xsize a.ysize A B

/-- C3 witness: the succeeding environment on two identical 1×1 inputs. -/
theorem claim_C3_witness :
    (computeSumOfSquares envOK ppfA ppfA).2 =
      (∑ y ∈ Finset.range ppfA.ysize, ∑ x ∈ Finset.range ppfA.xsize,
         (∑ k ∈ Finset.range 3,
            yuvmatrix 0 k * (imgZero.plane k y x - imgZero.plane k y x)) ^ 2,
       ∑ y ∈ Finset.range ppfA.ysize, ∑ x ∈ Finset.range ppfA.xsize,
         (∑ k ∈ Finset.range 3,
            yuvmatrix 1 k * (imgZero.plane k y x - imgZero.plane k y x)) ^ 2,
       ∑ y ∈ Finset.range ppfA.ysize, ∑ x ∈ Finset.range ppfA.xsize,
         (∑ k ∈ Finset.range 3,
            yuvmatrix 2 k * (imgZero.plane k y x - imgZero.plane k y x)) ^ 2) :=
  claim_C3 envOK ppfA ppfA imgZero imgZero rfl

/-- C4: given equal-sized inputs with matching channel counts for which the
sum-of-squares step succeeds with sums `s`, `ComputePSNR` prints nothing and
returns the weighted average, with weights `{6/8, 1/8, 1/8}`, of the
per-channel PSNRs `sum == 0 ? 99.99 : 20*log10(1/sqrt(sum/pixelCount))`;
in particular on two identical inputs all channel sums are 0 and the result
is the `99.99` ceiling. -/
theorem claim_C4 (env : Env) (a b : PPF) (s : ℝ × ℝ × ℝ)
    (hx : a.xsize = b.xsize) (hy : a.ysize = b.ysize)
    (hc : a.numColorChannels = b.numColorChannels)
    (hsos : computeSumOfSquares env a b = (.ok (), s)) :
    computePSNR env a b =
      (none,
        6 / 8 * (if s.1 = 0 then 99.99
                 else 20 * Real.logb 10 (1 / Real.sqrt (s.1 / ((a.xsize * a.ysize : Nat) : ℝ)))) +
        1 / 8 * (if s.2.1 = 0 then 99.99
                 else 20 * Real.logb 10 (1 / Real.sqrt (s.2.1 / ((a.xsize * a.ysize : Nat) : ℝ)))) +
        1 / 8 * (if s.2.2 = 0 then 99.99
                 else 20 * Real.logb 10 (1 / Real.sqrt (s.2.2 / ((a.xsize * a.ysize : Nat) : ℝ))))) ∧
    (a = b → computePSNR env a b = (none, 99.99)) := by
  have hno : ¬(a.xsize ≠ b.xsize ∨ a.ysize ≠ b.ysize) := by
    push_neg
    exact ⟨hx, hy⟩
  have hpsnr : computePSNR env a b = (none, psnrFromSums s (a.xsize * a.ysize)) := by
    rw [computePSNR, if_neg hno, if_neg (by simpa using hc), hsos]
  constructor
  · rw [hpsnr]
    simp only [psnrFromSums, channelPsnr]
  · intro hab
    subst hab
    have hzero : s = (0, 0, 0) := by
      unfold computeSumOfSquares at hsos
      cases hprep : srgbSOSPrep env a a with
      | error e => rw [hprep] at hsos; simp at hsos
      | ok pr =>
        obtain ⟨A, B⟩ := pr
        rw [hprep] at hsos
        have hAB : A = B := sosPrep_self env a A B hprep
        subst hAB
        have : sumOfSquaresCore a.xsize a.ysize A A = s := by
          simpa using congrArg Prod.snd hsos
        rw [← this, sumOfSquaresCore_self]
    rw [hpsnr, hzero, psnrFromSums_zero]

/-- C4 witness: `Psnr(a, a)` on a concrete succeeding environment returns the
99.99 ceiling. -/
theorem claim_C4_witness : computePSNR envOK ppfA ppfA = (none, 99.99) := by
  have hprep : srgbSOSPrep envOK ppfA ppfA = .ok (imgZero, imgZero) := rfl
  have hsos : computeSumOfSquares envOK ppfA ppfA = (.ok (), (0, 0, 0)) := by
    unfold computeSumOfSquares
    rw [hprep]
    show (Except.ok (), sumOfSquaresCore ppfA.xsize ppfA.ysize imgZero imgZero) =
      ((Except.ok () : Except Err Unit), ((0 : ℝ), (0 : ℝ), (0 : ℝ)))
    rw [sumOfSquaresCore_self]
  exact (claim_C4 envOK ppfA ppfA (0, 0, 0) rfl rfl rfl hsos).2 rfl

/-- C5: with unequal width or height, both the strict `ButteraugliDistance`
and `ComputePSNR` reject the inputs with their size-mismatch error (a typed
`Status` failure for the former, the corresponding diagnostic plus the `0.0`
sentinel for the latter); with equal sizes but mismatched channel counts they
reject with the grayscale-vs-RGB error.  Both checks hold for every
environment, so no conversion or reduction oracle is ever consulted. -/
theorem claim_C5 (env : Env) (a b : PPF) (params : ButteraugliParams) :
    ((a.xsize ≠ b.xsize ∨ a.ysize ≠ b.ysize) →
      butteraugliDistanceStrict env a b params = .error .sizeMismatch ∧
      computePSNR env a b = (some "Images must have the same size for PSNR.", 0)) ∧
    (a.xsize = b.xsize → a.ysize = b.ysize → a.numColorChannels ≠ b.numColorChannels →
      butteraugliDistanceStrict env a b params = .error .channelMismatch ∧
      computePSNR env a b = (some "Grayscale vs RGB comparison not supported.", 0)) := by
  constructor
  · intro h
    exact ⟨by rw [butteraugliDistanceStrict, if_pos h], by rw [computePSNR, if_pos h]⟩
  · intro hx hy hc
    have hno : ¬(a.xsize ≠ b.xsize ∨ a.ysize ≠ b.ysize) := by
      push_neg
      exact ⟨hx, hy⟩
    exact ⟨by rw [butteraugliDistanceStrict, if_neg hno, if_pos hc],
      by rw [computePSNR, if_neg hno, if_pos hc]⟩

/-- C5 witness: a 1×1 vs 2×1 comparison is rejected by both entry points,
and a color vs grayscale comparison likewise. -/
theorem claim_C5_witness :
    (butteraugliDistanceStrict envOK ppfA ppfW defaultButteraugliParams =
        .error .sizeMismatch ∧
      computePSNR envOK ppfA ppfW = (some "Images must have the same size for PSNR.", 0)) ∧
    (butteraugliDistanceStrict envOK ppfA ppfGray defaultButteraugliParams =
        .error .channelMismatch ∧
      computePSNR envOK ppfA ppfGray = (some "Grayscale vs RGB comparison not supported.", 0)) :=
  ⟨(claim_C5 envOK ppfA ppfW defaultButteraugliParams).1 (Or.inl (by decide)),
   (claim_C5 envOK ppfA ppfGray defaultButteraugliParams).2 rfl rfl (by decide)⟩

/-- C8: whenever `ComputeSumOfSquares` returns an error (conversion,
encoding query or transform failure), the three output sums are the
max-representable-double sentinel — never a partial accumulation — and on
success they are exactly the accumulation (which starts from the post-reset
zeros) over the successfully converted and transformed images. -/
theorem claim_C8 (env : Env) (a b : PPF) :
    (∀ e, (computeSumOfSquares env a b).1 = .error e →
      (computeSumOfSquares env a b).2 = (doubleMax, doubleMax, doubleMax)) ∧
    (∀ A B, srgbSOSPrep env a b = .ok (A, B) →
      (computeSumOfSquares env a b).2 = sumOfSquaresCore a.xsize a.ysize A B) := by
  constructor
  · intro e h
    unfold computeSumOfSquares at h ⊢
    cases hprep : srgbSOSPrep env a b with
    | error e' => rfl
    | ok pr =>
      obtain ⟨A, B⟩ := pr
      rw [hprep] at h
      simp at h
  · intro A B hprep
    unfold computeSumOfSquares
    rw [hprep]

/-- C8 witness: the failing-conversion environment leaves the sentinel. -/
theorem claim_C8_witness :
    (computeSumOfSquares envBadConv ppfA ppfA).2 = (doubleMax, doubleMax, doubleMax) :=
  (claim_C8 envBadConv ppfA ppfA).1 .convFail rfl

/-- C9: the lenient entry points convert strict failures into a diagnostic
plus a sentinel instead of propagating: the score-only `ButteraugliDistance`
wrapper returns the max-representable float (leaving the caller's distmap
untouched) exactly when the strict overload fails, and passes the score and
distmap through unchanged on success; `ComputePSNR` returns `0.0` with a
diagnostic when `ComputeSumOfSquares` fails and the computed score unchanged
when it succeeds. -/
theorem claim_C9 (env : Env) (a b : PPF) (params : ButteraugliParams) (dm0 : ImageF) :
    (∀ e, butteraugliDistanceStrict env a b params = .error e →
      butteraugliDistanceLenient env a b params dm0 =
        (some "ButteraugliDistance failed.", floatMax, dm0)) ∧
    (∀ r, butteraugliDistanceStrict env a b params = .ok r →
      butteraugliDistanceLenient env a b params dm0 = (none, r.1, r.2)) ∧
    (∀ e, (computeSumOfSquares env a b).1 = .error e →
      a.xsize = b.xsize → a.ysize = b.ysize → a.numColorChannels = b.numColorChannels →
      computePSNR env a b = (some "ComputeSumOfSquares failed.", 0)) ∧
    (∀ s, computeSumOfSquares env a b = (.ok (), s) →
      a.xsize = b.xsize → a.ysize = b.ysize → a.numColorChannels = b.numColorChannels →
      computePSNR env a b = (none, psnrFromSums s (a.xsize * a.ysize))) := by
  refine ⟨fun e h => ?_, fun r h => ?_, fun e h hx hy hc => ?_, fun s h hx hy hc => ?_⟩
  · rw [butteraugliDistanceLenient, h]
  · obtain ⟨score, dm⟩ := r
    rw [butteraugliDistanceLenient, h]
  · have hno : ¬(a.xsize ≠ b.xsize ∨ a.ysize ≠ b.ysize) := by
      push_neg
      exact ⟨hx, hy⟩
    rw [computePSNR, if_neg hno, if_neg (by simpa using hc)]
    cases hsos : computeSumOfSquares env a b with
    | mk st sums =>
      rw [hsos] at h
      cases st with
      | error e' => rfl
      | ok u => simp at h
  · have hno : ¬(a.xsize ≠ b.xsize ∨ a.ysize ≠ b.ysize) := by
      push_neg
      exact ⟨hx, hy⟩
    rw [computePSNR, if_neg hno, if_neg (by simpa using hc), h]

/-- C9 witness: with a failing conversion oracle on equal-sized inputs, the
lenient distance wrapper yields the float sentinel and an untouched distmap,
and the PSNR entry point yields the `0.0` sentinel. -/
theorem claim_C9_witness :
    butteraugliDistanceLenient envBadConv ppfA ppfA defaultButteraugliParams ImageF.empty =
      (some "ButteraugliDistance failed.", floatMax, ImageF.empty) ∧
    computePSNR envBadConv ppfA ppfA = (some "ComputeSumOfSquares failed.", 0) :=
  ⟨(claim_C9 envBadConv ppfA ppfA defaultButteraugliParams ImageF.empty).1 .convFail rfl,
   (claim_C9 envBadConv ppfA ppfA defaultButteraugliParams ImageF.empty).2.2.1 .convFail
     rfl rfl rfl rfl⟩

/-- C10: when the underlying strict distance computation fails (mismatched
dimensions, conversion/transform failure, comparator failure),
`Butteraugli3Norm` neither propagates the error nor returns a sentinel: the
lenient call leaves the default-constructed distmap zero-sized, and the
`p = 3` pooling of that empty map succeeds with exactly `0`. -/
theorem claim_C10 (env : Env) (L : Nat) (a b : PPF) (e : Err)
    (h : butteraugliDistanceStrict env a b defaultButteraugliParams = .error e) :
    butteraugli3Norm env L a b = 0 ∧
    (butteraugliDistanceLenient env a b defaultButteraugliParams ImageF.empty).2.2 =
      ImageF.empty := by
  have hlen : butteraugliDistanceLenient env a b defaultButteraugliParams ImageF.empty =
      (some "ButteraugliDistance failed.", floatMax, ImageF.empty) := by
    rw [butteraugliDistanceLenient, h]
  constructor
  · simp only [butteraugli3Norm]
    rw [hlen]
    exact computeDistanceP_empty _ _ _ _ (Or.inl rfl)
  · rw [hlen]

/-- C10 witness: conversion failure inside the distance pipeline still lets
`Butteraugli3Norm` return 0 through the empty-map case. -/
theorem claim_C10_witness :
    butteraugli3Norm envBadConv 1 ppfA ppfA = 0 ∧
    (butteraugliDistanceLenient envBadConv ppfA ppfA defaultButteraugliParams
        ImageF.empty).2.2 = ImageF.empty :=
  claim_C10 envBadConv 1 ppfA ppfA .convFail rfl

end Metrics
